import Mathlib

/-!
Verification of the halohome package (src/halohome/__init__.py) against its
natural-language specification.

The Python source is shallowly embedded: pure helpers become Lean functions
on `Nat`/`Int`/`List`/`String`; fallible Python operations (such as
`int.to_bytes`, which raises `OverflowError`, and `bytes(list)`, which raises
`ValueError` on out-of-range entries) become `Option`-valued functions where
`none` models the raised exception.  The asynchronous BLE transport and the
csrmesh crypto collaborator are opaque in the source and are modelled as
oracles / abstract byte lists.
-/

namespace HaloHome

/-! ### Byte-conversion primitives -/

/-- Model of Python `n.to_bytes(2, byteorder="big")` for a non-negative
`n`: the two big-endian bytes for `n < 65536`, and a raised `OverflowError`
(modelled as `none`) otherwise. -/
def toBytes2 (n : Nat) : Option (List Nat) :=
  if n < 65536 then some [n / 256, n % 256] else none

/-- Model of the Python `bytes(l)` constructor on a list of ints: it returns
the bytes unchanged when every entry is in `0..255` and raises `ValueError`
(modelled as `none`) otherwise.  There is no truncation. -/
def bytesOf (l : List Nat) : Option (List Nat) :=
  if l.all (fun b => b < 256) then some l else none

/-! ### PacketBuilder: `LocationConnection._create_packet` -/

/-- Model of `LocationConnection._create_packet` (src/halohome/__init__.py
lines 119-142).  `target_id < 32896` is treated as a group address
(`group_id := target_id`, `target_id := 0`); otherwise as a device address
(`group_id := 0`).  The 2-byte big-endian encodings are then laid out as
`[target_lo, target_hi, 115, 0, noun, group_hi, group_lo, 0, value..., 0, 0]`.
`none` models the `OverflowError` raised by `to_bytes` for ids above 65535. -/
def _create_packet (target_id : Nat) (noun : Nat) (value_bytes : List Nat) :
    Option (List Nat) :=
  let p := if target_id < 32896 then (0, target_id) else (target_id, 0)
  match toBytes2 p.1, toBytes2 p.2 with
  | some [t0, t1], some [g0, g1] =>
      some ([t1, t0, 115, 0, noun, g0, g1, 0] ++ value_bytes ++ [0, 0])
  | _, _ => none

/-- The device-target field of the wire frame as the claim reads it: bytes 0
(low) and 1 (high) of the packet, low byte first. -/
def deviceFieldOf (packet : List Nat) : Nat :=
  packet.getD 0 0 + 256 * packet.getD 1 0

/-- The group field of the wire frame as the claim reads it: bytes 5 (high)
and 6 (low) of the packet. -/
def groupFieldOf (packet : List Nat) : Nat :=
  256 * packet.getD 5 0 + packet.getD 6 0

/-! ### The facade operations: `set_brightness` / `set_color_temp`

Only the packet construction is modelled here; `_send_packet` delivery is
modelled separately below.  In the source, `set_brightness` runs
`bytes([brightness, 0, 0])` and `set_color_temp` runs
`bytes([0x01, *bytearray(color.to_bytes(2, byteorder="big"))])`. -/

/-- The value bytes built by `set_brightness` (source line 164):
`bytes([brightness, 0, 0])`, raising for a brightness outside `0..255`. -/
def brightnessValueBytes (brightness : Nat) : Option (List Nat) :=
  bytesOf [brightness, 0, 0]

/-- The value bytes built by `set_color_temp` (source line 168):
`bytes([0x01, *color.to_bytes(2, byteorder="big")])`, raising for a color
code outside `0..65535`. -/
def colorValueBytes (color : Nat) : Option (List Nat) :=
  (toBytes2 color).bind (fun cb => bytesOf (1 :: cb))

/-- The plaintext frame built by `set_brightness device_id brightness`
before encryption. -/
def brightnessPacket (device_id brightness : Nat) : Option (List Nat) :=
  (brightnessValueBytes brightness).bind (fun v => _create_packet device_id 0x0A v)

/-- The plaintext frame built by `set_color_temp device_id color` before
encryption. -/
def colorTempPacket (device_id color : Nat) : Option (List Nat) :=
  (colorValueBytes color).bind (fun v => _create_packet device_id 0x1D v)

/-- The value of the device field the builder encodes for a target id. -/
def devField (target_id : Nat) : Nat := if target_id < 32896 then 0 else target_id

/-- The value of the group field the builder encodes for a target id. -/
def grpField (target_id : Nat) : Nat := if target_id < 32896 then target_id else 0

/-! ### AddressCodec: `_format_mac_address`

Source lines 22-25:
```
iterator = iter(mac_address.lower())
pairs = zip(iterator, iterator)
return ":".join(a + b for a, b in pairs)
```
`zip(it, it)` over one shared iterator yields consecutive disjoint pairs of
characters, silently dropping a final unpaired character. -/

/-- Consecutive disjoint pairs of a character list, as produced by Python
`zip(iterator, iterator)` over a single iterator; a trailing odd character
is dropped. -/
def pairUp : List Char → List (Char × Char)
  | a :: b :: rest => (a, b) :: pairUp rest
  | _ => []

/-- Model of `_format_mac_address` (source lines 22-25). -/
def _format_mac_address (mac_address : String) : String :=
  String.mk
    (List.intercalate [':'] ((pairUp (mac_address.toList.map Char.toLower)).map
      (fun p => [p.1, p.2])))

/-! ### Directory loading: `_load_devices`

Source lines 204-221: each raw abstract device whose type field is
`"device"` is turned into a record carrying `avid` (unchanged) as
`device_id`, `name` as `device_name`, and the normalized MAC address. -/

/-- One entry of the abstract-devices list of the directory response, with
the fields `_load_devices` reads. -/
structure RawAbstractDevice where
  type : String
  avid : Nat
  name : String
  friendly_mac_address : String
deriving DecidableEq

/-- The dict `_load_devices` builds per device. -/
structure DeviceRecord where
  device_id : Nat
  device_name : String
  mac_address : String
deriving DecidableEq

/-- Model of `_load_devices` (source lines 204-221), applied to the
already-parsed abstract-devices list of the directory response. -/
def _load_devices (raw_devices : List RawAbstractDevice) : List DeviceRecord :=
  (raw_devices.filter (fun d => d.type == "device")).map
    (fun d => ⟨d.avid, d.name, _format_mac_address d.friendly_mac_address⟩)

/-! ### Key derivation input: `LocationConnection.__init__`

Source line 80:
`self.key = csrmesh.crypto.generate_key(passphrase.encode("ascii") + b"\x00\x4d\x43\x50")`.
`generate_key` is the opaque crypto collaborator; we model the byte string
handed to it.  Python `str.encode("ascii")` raises `UnicodeEncodeError` for
any character with code point 128 or above, modelled as `none`. -/

/-- Model of `passphrase.encode("ascii")`. -/
def asciiEncode (s : String) : Option (List Nat) :=
  if s.toList.all (fun c => c.toNat < 128) then some (s.toList.map Char.toNat)
  else none

/-- The byte string passed to the crypto collaborator's key derivation:
the ASCII encoding of the passphrase with the bytes
`0x00 0x4D 0x43 0x50` appended. -/
def keyMaterial (passphrase : String) : Option (List Nat) :=
  (asciiEncode passphrase).map (fun bs => bs ++ [0x00, 0x4D, 0x43, 0x50])

/-! ### BearerSelector: `_priority_devices`

Source lines 96-107.  The BLE scan is opaque; it is modelled as the list of
(address, rssi) pairs it reports, in discovery order.  Python `sorted` is a
stable sort; it is modelled by `List.insertionSort`, which is likewise
stable (an element coming earlier in the input is placed before any
relation-equivalent element coming later). -/

/-- A mesh member device as held by `LocationConnection.devices`. -/
structure Device where
  avid : Nat
  name : String
  mac_address : String
deriving DecidableEq

/-- One scanned advertisement: the reported address and RSSI. -/
structure ScanEntry where
  mac : String
  rssi : Int
deriving DecidableEq

/-- Python `list.index` as used by the inner `priority` helper: the first
index of `x` in `l`, or `-1` on the `ValueError` branch when absent. -/
def indexOrNeg (l : List String) (x : String) : Int :=
  match l.findIdx? (fun a => a == x) with
  | some i => (i : Int)
  | none => -1

/-- Model of Python `str.lower()`, character by character (as also used in
`_format_mac_address`). -/
def pyLower (s : String) : String := String.mk (s.toList.map Char.toLower)

/-- Source lines 98-99: the scan results sorted by RSSI ascending (stable),
lower-cased addresses. -/
def sortedAddresses (scan : List ScanEntry) : List String :=
  (List.insertionSort (fun a b => a.rssi ≤ b.rssi) scan).map
    (fun e => pyLower e.mac)

/-- The rank the inner `priority` helper assigns to a device (source lines
101-105). -/
def priorityOf (scan : List ScanEntry) (d : Device) : Int :=
  indexOrNeg (sortedAddresses scan) d.mac_address

/-- Model of `_priority_devices` (source lines 96-107): the devices sorted
by rank descending; Python's stable `sorted(..., reverse=True)` keeps
rank-equal devices in their original order. -/
def _priority_devices (devices : List Device) (scan : List ScanEntry) :
    List Device :=
  List.insertionSort (fun a b => priorityOf scan b ≤ priorityOf scan a) devices

/-! ### MeshBearer: `_connect` and `_send_packet`

The BLE transport collaborator (bleak) is opaque; it is modelled as a
deterministic oracle saying which GATT connects and which characteristic
writes succeed.  A connection handle is identified by the MAC address it
was opened on (`BleakClient(device.mac_address)`). -/

/-- Oracle for the BLE transport collaborator: `connectOk mac` is whether a
GATT connect to that MAC succeeds, `writeOk mac uuid` is whether a write to
that characteristic over a connection to that MAC succeeds.  Any `false`
models a raised `BleakError`/transport exception. -/
structure Transport where
  connectOk : String → Bool
  writeOk : String → String → Bool

/-- Source line 70. -/
def CHARACTERISTIC_LOW : String := "c4edc000-9daf-11e3-8003-00025b000b00"

/-- Source line 71. -/
def CHARACTERISTIC_HIGH : String := "c4edc000-9daf-11e3-8004-00025b000b00"

/-- Model of `LocationConnection._connect` (source lines 109-117), applied
to the candidate ordering computed by `_priority_devices`: try each
candidate in order and return the first successfully connected handle;
`BleakError`s are swallowed and the connection stays down (`none`) when
every candidate fails. -/
def _connect (t : Transport) : List Device → Option String
  | [] => none
  | d :: rest =>
      if t.connectOk d.mac_address then some d.mac_address else _connect t rest

/-- Outcome of one iteration of the retry loop in `_send_packet`: the mesh
connection afterwards, whether the iteration returned `True`, whether
`_connect` (candidate selection / reconnect) ran, and the successful
characteristic writes performed, in order. -/
structure IterResult where
  conn : Option String
  success : Bool
  connectCalled : Bool
  writes : List (String × List Nat)
deriving DecidableEq

/-- The two `write_gatt_char` calls of `_send_packet` (source lines
154-156) against an established connection `m`.  A failed write raises,
lands in the bare `except Exception` handler, and resets the connection to
`None`. -/
def attemptWrites (t : Transport) (m : String) (low high : List Nat)
    (connectCalled : Bool) : IterResult :=
  if t.writeOk m CHARACTERISTIC_LOW then
    if t.writeOk m CHARACTERISTIC_HIGH then
      ⟨some m, true, connectCalled,
       [(CHARACTERISTIC_LOW, low), (CHARACTERISTIC_HIGH, high)]⟩
    else ⟨none, false, connectCalled, [(CHARACTERISTIC_LOW, low)]⟩
  else ⟨none, false, connectCalled, []⟩

/-- One iteration of the `for _ in range(3)` loop of `_send_packet` (source
lines 149-159).  When the connection is down, `_connect` runs first; if it
leaves the connection down, the first write raises `AttributeError` on
`None`, which the same `except Exception` handler catches. -/
def sendIter (t : Transport) (candidates : List Device) (low high : List Nat) :
    Option String → IterResult
  | none =>
      match _connect t candidates with
      | none => ⟨none, false, true, []⟩
      | some m => attemptWrites t m low high true
  | some m => attemptWrites t m low high false

/-- Aggregate outcome of `_send_packet`: the boolean result, the mesh
connection afterwards, how many loop iterations (connect/write cycles) ran,
how many times `_connect` was invoked, and all successful writes. -/
structure SendResult where
  success : Bool
  conn : Option String
  cycles : Nat
  connects : Nat
  writes : List (String × List Nat)
deriving DecidableEq

/-- The retry loop of `_send_packet`, instrumented.  `fuel` is the number of
remaining iterations of `for _ in range(3)`; the loop stops with `True` as
soon as both writes succeed and otherwise falls out returning `False`. -/
def sendLoop (t : Transport) (candidates : List Device) (low high : List Nat) :
    Nat → Option String → SendResult
  | 0, conn => ⟨false, conn, 0, 0, []⟩
  | fuel + 1, conn =>
      let r := sendIter t candidates low high conn
      if r.success then
        ⟨true, r.conn, 1, if r.connectCalled then 1 else 0, r.writes⟩
      else
        let rest := sendLoop t candidates low high fuel r.conn
        ⟨rest.success, rest.conn, rest.cycles + 1,
         (if r.connectCalled then 1 else 0) + rest.connects,
         r.writes ++ rest.writes⟩

/-- Model of `_send_packet` (source lines 144-161).  `csrpacket` is the
ciphertext produced by the opaque crypto collaborator
(`csrmesh.crypto.make_packet`); it is split as `csrpacket[:20]` and
`csrpacket[20:]` and delivered through up to three connect/write cycles. -/
def _send_packet (t : Transport) (candidates : List Device)
    (csrpacket : List Nat) (conn : Option String) : SendResult :=
  sendLoop t candidates (csrpacket.take 20) (csrpacket.drop 20) 3 conn

end HaloHome

namespace HaloHome

/-- C1: for `target_avid < 32896` the built packet carries device field 0 and
group field `target_avid`; for `32896 ≤ target_avid ≤ 65535` it carries
device field `target_avid` and group field 0. -/
theorem create_packet_addressing (target_id noun : Nat) (value_bytes : List Nat)
    (htid : target_id ≤ 65535) (p : List Nat)
    (hp : _create_packet target_id noun value_bytes = some p) :
    (target_id < 32896 → deviceFieldOf p = 0 ∧ groupFieldOf p = target_id) ∧
    (32896 ≤ target_id → deviceFieldOf p = target_id ∧ groupFieldOf p = 0) := by
  have h65536 : target_id < 65536 := Nat.lt_succ_of_le htid
  by_cases h : target_id < 32896
  · have hg : target_id / 256 < 256 := Nat.div_lt_of_lt_mul (by omega)
    simp only [_create_packet, toBytes2, h, if_true] at hp
    rw [if_pos (by omega), if_pos h65536] at hp
    simp only [Option.some.injEq] at hp
    subst hp
    refine ⟨fun _ => ?_, fun h' => absurd h (by omega)⟩
    constructor
    · simp [deviceFieldOf]
    · simp [groupFieldOf, List.getD]
      omega
  · simp only [_create_packet, toBytes2, h, if_false] at hp
    rw [if_pos h65536, if_pos (by omega)] at hp
    simp only [Option.some.injEq] at hp
    subst hp
    refine ⟨fun h' => absurd h' (by omega), fun _ => ?_⟩
    constructor
    · simp [deviceFieldOf, List.getD]
      omega
    · simp [groupFieldOf]

/-- Witness for C1 at the concrete targets 5 (a group address) and 40000
(a device address), on their concretely evaluated packets. -/
theorem create_packet_addressing_witness :
    deviceFieldOf [0, 0, 115, 0, 10, 0, 5, 0, 1, 2, 3, 0, 0] = 0 ∧
    groupFieldOf [0, 0, 115, 0, 10, 0, 5, 0, 1, 2, 3, 0, 0] = 5 ∧
    deviceFieldOf [64, 156, 115, 0, 10, 0, 0, 0, 1, 2, 3, 0, 0] = 40000 ∧
    groupFieldOf [64, 156, 115, 0, 10, 0, 0, 0, 1, 2, 3, 0, 0] = 0 := by
  have h1 := (create_packet_addressing 5 10 [1, 2, 3] (by decide)
    [0, 0, 115, 0, 10, 0, 5, 0, 1, 2, 3, 0, 0] (by decide)).1 (by decide)
  have h2 := (create_packet_addressing 40000 10 [1, 2, 3] (by decide)
    [64, 156, 115, 0, 10, 0, 0, 0, 1, 2, 3, 0, 0] (by decide)).2 (by decide)
  exact ⟨h1.1, h1.2, h2.1, h2.2⟩

/-- Evaluating `_create_packet` in closed form: for any in-range target id
the frame is the 8-byte addressed header, the value bytes, and two trailing
zeros. -/
theorem _create_packet_eq (target_id noun : Nat) (v : List Nat)
    (h : target_id < 65536) :
    _create_packet target_id noun v =
      some ([devField target_id % 256, devField target_id / 256, 115, 0, noun,
             grpField target_id / 256, grpField target_id % 256, 0] ++ v ++ [0, 0]) := by
  by_cases hc : target_id < 32896 <;>
    simp [_create_packet, toBytes2, hc, h, devField, grpField, Nat.mod_eq_of_lt]

/-- C2: for every valid target avid, brightness level and color code, the
plaintext frame built before encryption is exactly the 13 bytes
`[dev_lo, dev_hi, 115, 0, noun, grp_hi, grp_lo, 0, v0, v1, v2, 0, 0]`, where
for `set_brightness` the noun is `0x0A` with value bytes `[level, 0, 0]` and
for `set_color_temp` the noun is `0x1D` with value bytes
`[1, hi color, lo color]`. -/
theorem packet_frame_layout (target_id level color : Nat)
    (htid : target_id ≤ 65535) (hlevel : level ≤ 255) (hcolor : color ≤ 65535) :
    brightnessPacket target_id level =
      some [devField target_id % 256, devField target_id / 256, 115, 0, 0x0A,
            grpField target_id / 256, grpField target_id % 256, 0,
            level, 0, 0, 0, 0] ∧
    colorTempPacket target_id color =
      some [devField target_id % 256, devField target_id / 256, 115, 0, 0x1D,
            grpField target_id / 256, grpField target_id % 256, 0,
            1, color / 256, color % 256, 0, 0] ∧
    (∀ p, brightnessPacket target_id level = some p → p.length = 13) ∧
    (∀ p, colorTempPacket target_id color = some p → p.length = 13) := by
  have h65536 : target_id < 65536 := by omega
  have hbv : brightnessValueBytes level = some [level, 0, 0] := by
    simp [brightnessValueBytes, bytesOf]
    omega
  have hcdiv : color / 256 < 256 := Nat.div_lt_of_lt_mul (by omega)
  have hcv : colorValueBytes color = some [1, color / 256, color % 256] := by
    simp [colorValueBytes, toBytes2, bytesOf, Nat.lt_succ_of_le hcolor]
    constructor
    · omega
    · exact Nat.mod_lt _ (by omega)
  have hb : brightnessPacket target_id level =
      some [devField target_id % 256, devField target_id / 256, 115, 0, 0x0A,
            grpField target_id / 256, grpField target_id % 256, 0,
            level, 0, 0, 0, 0] := by
    simp [brightnessPacket, hbv, _create_packet_eq _ _ _ h65536]
  have hc : colorTempPacket target_id color =
      some [devField target_id % 256, devField target_id / 256, 115, 0, 0x1D,
            grpField target_id / 256, grpField target_id % 256, 0,
            1, color / 256, color % 256, 0, 0] := by
    simp [colorTempPacket, hcv, _create_packet_eq _ _ _ h65536]
  refine ⟨hb, hc, fun p hp => ?_, fun p hp => ?_⟩
  · rw [hb] at hp
    cases hp
    rfl
  · rw [hc] at hp
    cases hp
    rfl

/-- Witness for C2 at target 5, brightness 128, color code 3000. -/
theorem packet_frame_layout_witness :
    brightnessPacket 5 128 = some [0, 0, 115, 0, 10, 0, 5, 0, 128, 0, 0, 0, 0] ∧
    colorTempPacket 5 3000 = some [0, 0, 115, 0, 29, 0, 5, 0, 1, 11, 184, 0, 0] := by
  have h := packet_frame_layout 5 128 3000 (by decide) (by decide) (by decide)
  exact ⟨h.1, h.2.1⟩

/-- Counterexample to C8: a brightness of 256 (outside `0..255`) is not
passed through as truncated raw bytes — `bytes([256, 0, 0])` raises
`ValueError` (modelled as `none`), and likewise `(65536).to_bytes(2, "big")`
raises `OverflowError`, so the claim that out-of-range values never cause an
exception is false. -/
theorem out_of_range_raises :
    brightnessPacket 0 256 = none ∧ colorTempPacket 0 65536 = none := by decide

/-- C8 as amended: the layer performs no explicit range validation and
passes in-range values through as raw bytes unchanged, but an out-of-range
value (brightness above 255, color code above 65535) makes the byte
conversion raise instead of silently truncating. -/
theorem value_range_behaviour (level color : Nat) :
    (level ≤ 255 → brightnessValueBytes level = some [level, 0, 0]) ∧
    (255 < level → brightnessValueBytes level = none) ∧
    (color ≤ 65535 → colorValueBytes color = some [1, color / 256, color % 256]) ∧
    (65535 < color → colorValueBytes color = none) := by
  refine ⟨fun h => ?_, fun h => ?_, fun h => ?_, fun h => ?_⟩
  · simp [brightnessValueBytes, bytesOf]
    omega
  · simp [brightnessValueBytes, bytesOf]
    omega
  · have : color / 256 < 256 := Nat.div_lt_of_lt_mul (by omega)
    simp [colorValueBytes, toBytes2, bytesOf, Nat.lt_succ_of_le h]
    exact ⟨by omega, Nat.mod_lt _ (by omega)⟩
  · simp [colorValueBytes, toBytes2]
    omega

/-- Witness for the amended C8 at brightness 100 and 300, color 3000 and
70000. -/
theorem value_range_behaviour_witness :
    brightnessValueBytes 100 = some [100, 0, 0] ∧
    brightnessValueBytes 300 = none ∧
    colorValueBytes 3000 = some [1, 11, 184] ∧
    colorValueBytes 70000 = none :=
  ⟨(value_range_behaviour 100 0).1 (by decide),
   (value_range_behaviour 300 0).2.1 (by decide),
   (value_range_behaviour 0 3000).2.2.1 (by decide),
   (value_range_behaviour 0 70000).2.2.2 (by decide)⟩

/-- Counterexample to C7's idempotence: `"aa:bb:cc:dd:ee:ff"` is the
normalized form of the raw address `"AABBCCDDEEFF"`, yet running
`_format_mac_address` on it again mangles it instead of returning it
unchanged (the colon characters get swept into the pairing). -/
theorem format_mac_not_idempotent :
    _format_mac_address "AABBCCDDEEFF" = "aa:bb:cc:dd:ee:ff" ∧
    _format_mac_address (_format_mac_address "AABBCCDDEEFF") ≠
      _format_mac_address "AABBCCDDEEFF" := by decide

/-- C7 as amended: for every raw 12-character address, `_format_mac_address`
returns the 6 colon-separated lowercase two-character byte pairs (the
idempotence half of the original claim is false). -/
theorem format_mac_normalizes (c0 c1 c2 c3 c4 c5 c6 c7 c8 c9 c10 c11 : Char) :
    _format_mac_address (String.mk [c0, c1, c2, c3, c4, c5, c6, c7, c8, c9, c10, c11]) =
      String.mk [c0.toLower, c1.toLower, ':', c2.toLower, c3.toLower, ':',
                 c4.toLower, c5.toLower, ':', c6.toLower, c7.toLower, ':',
                 c8.toLower, c9.toLower, ':', c10.toLower, c11.toLower] := by
  simp [_format_mac_address, pairUp, List.intercalate, String.toList]

/-- Counterexample to C9: for a directory response listing devices with
avids 5 and 9, `_load_devices` reports device ids 5 and 9 unchanged; no
per-location offset is applied, so the smallest reported avid is mapped to
5, not 0. -/
theorem load_devices_no_offset :
    (_load_devices
        [⟨"device", 5, "a", "AABBCCDDEEFF"⟩,
         ⟨"device", 9, "b", "AABBCCDDEE00"⟩]).map (fun d => d.device_id) = [5, 9] ∧
    ([5, 9] : List Nat) ≠ [0, 4] := by decide

/-- C9 as amended: `_load_devices` passes each device's reported `avid`
through unchanged as its `device_id`; no per-location offset normalization
is performed. -/
theorem load_devices_avid_passthrough (raw_devices : List RawAbstractDevice) :
    (_load_devices raw_devices).map (fun d => d.device_id) =
      (raw_devices.filter (fun d => d.type == "device")).map (fun d => d.avid) := by
  simp [_load_devices, List.map_map]

/-- C10: the key-derivation input is the ASCII bytes of the passphrase with
the four fixed bytes `0x00 0x4D 0x43 0x50` appended, and construction fails
for a passphrase containing any non-ASCII character. -/
theorem key_material_spec (p : String) :
    ((∀ c ∈ p.toList, c.toNat < 128) →
      keyMaterial p = some (p.toList.map Char.toNat ++ [0x00, 0x4D, 0x43, 0x50])) ∧
    ((∃ c ∈ p.toList, 128 ≤ c.toNat) → keyMaterial p = none) := by
  constructor
  · intro h
    have hall : p.toList.all (fun c => decide (c.toNat < 128)) = true := by
      simpa [List.all_eq_true] using h
    simp [keyMaterial, asciiEncode, hall]
    exact h
  · rintro ⟨c, hc, h128⟩
    have hall : ¬ (p.toList.all (fun c => decide (c.toNat < 128)) = true) := by
      simp [List.all_eq_true]
      exact ⟨c, hc, by omega⟩
    simp [keyMaterial, asciiEncode, hall]
    exact ⟨c, hc, h128⟩

/-- Witness for C10 on the ASCII passphrase `"abc"` and the non-ASCII
passphrase `"é"`. -/
theorem key_material_spec_witness :
    keyMaterial "abc" = some [97, 98, 99, 0x00, 0x4D, 0x43, 0x50] ∧
    keyMaterial "é" = none :=
  ⟨(key_material_spec "abc").1 (by decide),
   (key_material_spec "é").2 ⟨'é', by decide, by decide⟩⟩

/-- Helper: when every connect fails, `_connect` leaves the connection
down. -/
theorem connect_none_of_all_fail (t : Transport)
    (hc : ∀ mac, t.connectOk mac = false) :
    ∀ l : List Device, _connect t l = none := by
  intro l
  induction l with
  | nil => rfl
  | cons d rest ih => simp [_connect, hc, ih]

/-- C3: against a transport where every connect and write attempt fails,
`_send_packet` returns `False` after exactly 3 connect/write cycles; no
exception reaches the caller (the model is a total function into a boolean
result). -/
theorem send_packet_all_fail (t : Transport) (candidates : List Device)
    (csrpacket : List Nat) (conn : Option String)
    (hc : ∀ mac, t.connectOk mac = false)
    (hw : ∀ mac uuid, t.writeOk mac uuid = false) :
    (_send_packet t candidates csrpacket conn).success = false ∧
    (_send_packet t candidates csrpacket conn).cycles = 3 := by
  have hconn := connect_none_of_all_fail t hc
  have hiter : ∀ c,
      (sendIter t candidates (csrpacket.take 20) (csrpacket.drop 20) c).success
        = false := by
    intro c
    cases c with
    | none => simp [sendIter, hconn, attemptWrites, hw]
    | some m => simp [sendIter, attemptWrites, hw]
  have hloop : ∀ (n : Nat) (c : Option String),
      (sendLoop t candidates (csrpacket.take 20) (csrpacket.drop 20) n c).success
          = false ∧
      (sendLoop t candidates (csrpacket.take 20) (csrpacket.drop 20) n c).cycles
          = n := by
    intro n
    induction n with
    | zero => intro c; exact ⟨rfl, rfl⟩
    | succ k ih =>
      intro c
      have h1 := hiter c
      have h2 := ih (sendIter t candidates (csrpacket.take 20) (csrpacket.drop 20) c).conn
      simp [sendLoop, h1, h2.1, h2.2]
  exact hloop 3 conn

/-- Witness for C3: an always-failing transport, no candidates, a 2-byte
packet. -/
theorem send_packet_all_fail_witness :
    (_send_packet ⟨fun _ => false, fun _ _ => false⟩ [] [1, 2] none).success
        = false ∧
    (_send_packet ⟨fun _ => false, fun _ _ => false⟩ [] [1, 2] none).cycles
        = 3 :=
  send_packet_all_fail _ _ _ _ (fun _ => rfl) (fun _ _ => rfl)

/-- Helper: any write `attemptWrites` performs is the low chunk to the low
characteristic or the high chunk to the high characteristic. -/
theorem attemptWrites_writes_sub (t : Transport) (m : String)
    (low high : List Nat) (cc : Bool) :
    ∀ w ∈ (attemptWrites t m low high cc).writes,
      w = (CHARACTERISTIC_LOW, low) ∨ w = (CHARACTERISTIC_HIGH, high) := by
  intro w hw
  unfold attemptWrites at hw
  cases h1 : t.writeOk m CHARACTERISTIC_LOW <;>
    cases h2 : t.writeOk m CHARACTERISTIC_HIGH <;>
      simp [h1, h2] at hw <;> tauto

/-- Helper: the same for one whole iteration of the retry loop. -/
theorem sendIter_writes_sub (t : Transport) (candidates : List Device)
    (low high : List Nat) :
    ∀ c, ∀ w ∈ (sendIter t candidates low high c).writes,
      w = (CHARACTERISTIC_LOW, low) ∨ w = (CHARACTERISTIC_HIGH, high) := by
  intro c w hw
  cases c with
  | some m => exact attemptWrites_writes_sub t m low high false w hw
  | none =>
    unfold sendIter at hw
    cases hcon : _connect t candidates with
    | none =>
      rw [hcon] at hw
      simp at hw
    | some m =>
      rw [hcon] at hw
      exact attemptWrites_writes_sub t m low high true w hw

/-- Helper: the same for the whole retry loop. -/
theorem sendLoop_writes_sub (t : Transport) (candidates : List Device)
    (low high : List Nat) :
    ∀ (n : Nat) (c : Option String),
      ∀ w ∈ (sendLoop t candidates low high n c).writes,
        w = (CHARACTERISTIC_LOW, low) ∨ w = (CHARACTERISTIC_HIGH, high) := by
  intro n
  induction n with
  | zero =>
    intro c w hw
    simp [sendLoop] at hw
  | succ k ih =>
    intro c w hw
    simp only [sendLoop] at hw
    split at hw
    · exact sendIter_writes_sub t candidates low high c w hw
    · simp only [List.mem_append] at hw
      rcases hw with hw | hw
      · exact sendIter_writes_sub t candidates low high c w hw
      · exact ih _ w hw

/-- Helper: a send that finds an established connection whose two writes
succeed returns `True` after one cycle, keeps that connection, performs no
candidate selection, and writes exactly the low chunk to the low
characteristic then the high chunk to the high characteristic. -/
theorem sendLoop_cached (t : Transport) (candidates : List Device)
    (low high : List Nat) (n : Nat) (m : String)
    (h1 : t.writeOk m CHARACTERISTIC_LOW = true)
    (h2 : t.writeOk m CHARACTERISTIC_HIGH = true) :
    sendLoop t candidates low high (n + 1) (some m) =
      ⟨true, some m, 1, 0,
       [(CHARACTERISTIC_LOW, low), (CHARACTERISTIC_HIGH, high)]⟩ := by
  simp [sendLoop, sendIter, attemptWrites, h1, h2]

/-- C4: for a 40-byte ciphertext, `_send_packet` splits it into exactly the
two 20-byte chunks `csrpacket[0:20]` and `csrpacket[20:40]`; every write it
performs is the low chunk to the fixed low-characteristic UUID or the high
chunk to the fixed high-characteristic UUID, each carrying at most 20
bytes, and on an established connection whose writes succeed it writes
exactly the low chunk to the low UUID then the high chunk to the high
UUID. -/
theorem ciphertext_split (t : Transport) (candidates : List Device)
    (csrpacket : List Nat) (conn : Option String)
    (h40 : csrpacket.length = 40) :
    (csrpacket.take 20).length = 20 ∧
    (csrpacket.drop 20).length = 20 ∧
    csrpacket.take 20 ++ csrpacket.drop 20 = csrpacket ∧
    (∀ w ∈ (_send_packet t candidates csrpacket conn).writes,
        (w = (CHARACTERISTIC_LOW, csrpacket.take 20) ∨
         w = (CHARACTERISTIC_HIGH, csrpacket.drop 20)) ∧ w.2.length ≤ 20) ∧
    (∀ m, t.writeOk m CHARACTERISTIC_LOW = true →
        t.writeOk m CHARACTERISTIC_HIGH = true →
        (_send_packet t candidates csrpacket (some m)).writes =
          [(CHARACTERISTIC_LOW, csrpacket.take 20),
           (CHARACTERISTIC_HIGH, csrpacket.drop 20)]) := by
  have hlt : (csrpacket.take 20).length = 20 := by
    simp [List.length_take, h40]
  have hld : (csrpacket.drop 20).length = 20 := by
    simp [List.length_drop, h40]
  refine ⟨hlt, hld, List.take_append_drop _ _, fun w hw => ?_, fun m h1 h2 => ?_⟩
  · have := sendLoop_writes_sub t candidates (csrpacket.take 20)
      (csrpacket.drop 20) 3 conn w hw
    refine ⟨this, ?_⟩
    rcases this with h | h <;> subst h <;> simp [hlt, hld]
  · have := sendLoop_cached t candidates (csrpacket.take 20)
      (csrpacket.drop 20) 2 m h1 h2
    rw [_send_packet, this]

/-- Witness for C4 on the concrete ciphertext `[0, 1, ..., 39]`, delivered
over an established connection to `"aa"` with an always-succeeding
transport. -/
theorem ciphertext_split_witness :
    ((List.range 40).take 20).length = 20 ∧
    ((List.range 40).drop 20).length = 20 ∧
    (List.range 40).take 20 ++ (List.range 40).drop 20 = List.range 40 ∧
    (_send_packet ⟨fun _ => true, fun _ _ => true⟩ [] (List.range 40)
        (some "aa")).writes =
      [(CHARACTERISTIC_LOW, (List.range 40).take 20),
       (CHARACTERISTIC_HIGH, (List.range 40).drop 20)] := by
  have h := ciphertext_split ⟨fun _ => true, fun _ _ => true⟩ [] (List.range 40)
    (some "aa") (by decide)
  exact ⟨h.1, h.2.1, h.2.2.1, h.2.2.2.2 "aa" rfl rfl⟩

/-- C6: the connection handle is cached across sends.  First, a send that
finds an established connection whose writes succeed performs no candidate
selection or reconnect (`connects = 0`), writes over the existing handle
and keeps it.  Second, when the first candidate's connect fails and the
second's succeeds (with working writes), the send returns `True` holding
the second candidate's connection, and a following send reuses exactly that
connection with no reconnect. -/
theorem connection_caching :
    (∀ (t : Transport) (candidates : List Device) (csrpacket : List Nat)
        (m : String),
        t.writeOk m CHARACTERISTIC_LOW = true →
        t.writeOk m CHARACTERISTIC_HIGH = true →
        _send_packet t candidates csrpacket (some m) =
          ⟨true, some m, 1, 0,
           [(CHARACTERISTIC_LOW, csrpacket.take 20),
            (CHARACTERISTIC_HIGH, csrpacket.drop 20)]⟩) ∧
    (∀ (t : Transport) (d1 d2 : Device) (csrpacket : List Nat),
        t.connectOk d1.mac_address = false →
        t.connectOk d2.mac_address = true →
        t.writeOk d2.mac_address CHARACTERISTIC_LOW = true →
        t.writeOk d2.mac_address CHARACTERISTIC_HIGH = true →
        _send_packet t [d1, d2] csrpacket none =
          ⟨true, some d2.mac_address, 1, 1,
           [(CHARACTERISTIC_LOW, csrpacket.take 20),
            (CHARACTERISTIC_HIGH, csrpacket.drop 20)]⟩ ∧
        _send_packet t [d1, d2] csrpacket
            ((_send_packet t [d1, d2] csrpacket none).conn) =
          ⟨true, some d2.mac_address, 1, 0,
           [(CHARACTERISTIC_LOW, csrpacket.take 20),
            (CHARACTERISTIC_HIGH, csrpacket.drop 20)]⟩) := by
  constructor
  · intro t candidates csrpacket m h1 h2
    exact sendLoop_cached t candidates _ _ 2 m h1 h2
  · intro t d1 d2 csrpacket hc1 hc2 h1 h2
    have hcon : _connect t [d1, d2] = some d2.mac_address := by
      simp [_connect, hc1, hc2]
    have hfirst : _send_packet t [d1, d2] csrpacket none =
        ⟨true, some d2.mac_address, 1, 1,
         [(CHARACTERISTIC_LOW, csrpacket.take 20),
          (CHARACTERISTIC_HIGH, csrpacket.drop 20)]⟩ := by
      show sendLoop t [d1, d2] _ _ (2 + 1) none = _
      simp [sendLoop, sendIter, hcon, attemptWrites, h1, h2]
    refine ⟨hfirst, ?_⟩
    rw [hfirst]
    exact sendLoop_cached t [d1, d2] _ _ 2 d2.mac_address h1 h2

/-- Witness for C6: candidates with addresses `"aa"` (connect fails) and
`"bb"` (connect and writes succeed), a 3-byte ciphertext. -/
theorem connection_caching_witness :
    _send_packet ⟨fun m => m == "bb", fun m _ => m == "bb"⟩
        [⟨1, "A", "aa"⟩, ⟨2, "B", "bb"⟩] [7, 8, 9] (some "bb") =
      ⟨true, some "bb", 1, 0,
       [(CHARACTERISTIC_LOW, [7, 8, 9]), (CHARACTERISTIC_HIGH, [])]⟩ ∧
    _send_packet ⟨fun m => m == "bb", fun m _ => m == "bb"⟩
        [⟨1, "A", "aa"⟩, ⟨2, "B", "bb"⟩] [7, 8, 9] none =
      ⟨true, some "bb", 1, 1,
       [(CHARACTERISTIC_LOW, [7, 8, 9]), (CHARACTERISTIC_HIGH, [])]⟩ := by
  have h := connection_caching
  refine ⟨?_, ?_⟩
  · have := h.1 ⟨fun m => m == "bb", fun m _ => m == "bb"⟩
      [⟨1, "A", "aa"⟩, ⟨2, "B", "bb"⟩] [7, 8, 9] "bb" (by decide) (by decide)
    simpa using this
  · have := (h.2 ⟨fun m => m == "bb", fun m _ => m == "bb"⟩
      ⟨1, "A", "aa"⟩ ⟨2, "B", "bb"⟩ [7, 8, 9] (by decide) (by decide)
      (by decide) (by decide)).1
    simpa using this

/-- Helper: filtering an ordered insertion.  When the inserted element
passes the filter and every element it can be placed in front of fails it,
the insertion lands in front of the whole filtrate; when it fails the
filter, the filtrate is unchanged. -/
theorem filter_orderedInsert {α : Type} (r : α → α → Prop) [DecidableRel r]
    (p : α → Bool) (a : α) (s : List α) :
    ((p a = true → (∀ b, ¬ r a b → p b = false) →
        (s.orderedInsert r a).filter p = a :: s.filter p) ∧
     (p a = false → (s.orderedInsert r a).filter p = s.filter p)) := by
  rw [List.orderedInsert_eq_take_drop, List.filter_append, List.filter_cons]
  constructor
  · intro hpa hno
    have htake : (s.takeWhile (fun b => decide ¬ r a b)).filter p = [] := by
      refine List.filter_eq_nil_iff.mpr (fun b hb => ?_)
      have h1 := List.mem_takeWhile_imp hb
      simp only [decide_eq_true_eq] at h1
      simp [hno b h1]
    have hsplit : s.filter p =
        (s.takeWhile (fun b => decide ¬ r a b)).filter p ++
          (s.dropWhile (fun b => decide ¬ r a b)).filter p := by
      rw [← List.filter_append, List.takeWhile_append_dropWhile]
    rw [htake, hpa, if_pos rfl, hsplit, htake]
    simp
  · intro hpa
    rw [hpa]
    simp only [Bool.false_eq_true, if_false]
    rw [← List.filter_append, List.takeWhile_append_dropWhile]

/-- Helper: stability of the descending insertion sort used by
`_priority_devices`.  The elements of any one rank class come out in their
original order: filtering the sorted list down to one key value gives the
same list as filtering the input. -/
theorem filter_insertionSort_byKey {α : Type} (key : α → Int) (k : Int)
    (l : List α) :
    (List.insertionSort (fun a b => key b ≤ key a) l).filter
        (fun x => decide (key x = k)) =
      l.filter (fun x => decide (key x = k)) := by
  induction l with
  | nil => rfl
  | cons a l ih =>
    rw [List.insertionSort, List.filter_cons]
    by_cases hk : key a = k
    · have h1 := (filter_orderedInsert (fun a b : α => key b ≤ key a)
        (fun x => decide (key x = k)) a
        (List.insertionSort (fun a b => key b ≤ key a) l)).1
      rw [h1 (by simp [hk]) (fun b hb => by
        simp only [decide_eq_false_iff_not]
        intro hbk
        exact hb (by omega)), ih]
      simp [hk]
    · have h2 := (filter_orderedInsert (fun a b : α => key b ≤ key a)
        (fun x => decide (key x = k)) a
        (List.insertionSort (fun a b => key b ≤ key a) l)).2
      rw [h2 (by simp [hk]), ih]
      simp [hk]

/-- C5: `_priority_devices` returns a permutation of the device list,
sorted by rank descending (rank = index of the device's MAC in the
ascending-RSSI scan ordering, `-1` when absent), rank ties keeping their
original order; and on the concrete scenario of the claim — device A with
rssi -80, device B with rssi -40, device C unseen — the order is
`[B, A, C]`. -/
theorem priority_devices_spec (devices : List Device) (scan : List ScanEntry)
    (k : Int) :
    List.Perm (_priority_devices devices scan) devices ∧
    List.Sorted (fun a b => priorityOf scan b ≤ priorityOf scan a)
      (_priority_devices devices scan) ∧
    (_priority_devices devices scan).filter
        (fun d => decide (priorityOf scan d = k)) =
      devices.filter (fun d => decide (priorityOf scan d = k)) ∧
    _priority_devices
        [⟨1, "A", "aa"⟩, ⟨2, "B", "bb"⟩, ⟨3, "C", "cc"⟩]
        [⟨"AA", -80⟩, ⟨"BB", -40⟩] =
      [⟨2, "B", "bb"⟩, ⟨1, "A", "aa"⟩, ⟨3, "C", "cc"⟩] := by
  refine ⟨List.perm_insertionSort _ _, ?_, ?_, by decide⟩
  · haveI : IsTotal Device (fun a b => priorityOf scan b ≤ priorityOf scan a) :=
      ⟨fun a b => le_total _ _⟩
    haveI : IsTrans Device (fun a b => priorityOf scan b ≤ priorityOf scan a) :=
      ⟨fun a b c hab hbc => le_trans hbc hab⟩
    exact List.sorted_insertionSort _ _
  · exact filter_insertionSort_byKey (priorityOf scan) k devices

end HaloHome
